import Mathlib

/-!
Verification of the population-based refinement orchestrator
(`my_agent/agent.py`, `my_agent/upper_agents.py`) against its specification.

The shallow embedding below translates the upper-level LangGraph workflow:
the state record, the node functions (`ask_question`, `beam_search_agent`,
`initial_response_handler`, `revised_response_handler`, the commenter /
scorer / difficulty / check-done / final-summary agents) and the routers
(`scorer_router`, `initial_response_router`, `difficulty_router`,
`revision_router`, `done_router`), plus a step function that executes the
compiled graph one node at a time.  Calls into language models are modelled
as oracle inputs: the step function receives the text / score the external
model would return, since the control flow of the orchestrator depends only
on those returned values.

Scores are modelled as rationals: Python parses the scorer's reply with
`float(...)`, and every property in scope depends only on how scores
compare, never on floating-point rounding.
-/

/-- One generated answer, as held in a thread's history.  In Python this is
the `agent_response` dict `{"text": ..., "comments": ..., "score": ...}`;
`comments` and `score` are attached by later critique nodes, so a freshly
generated response carries the defaults `""` and `0` until those nodes run. -/
structure AgentResponse where
  text : String
  comments : String
  score : ℚ
deriving DecidableEq, Repr, Inhabited

/-- One reasoning thread: `{"agent_name": ..., "content": [...]}` in
`initial_response_handler`.  `content` is the revision history. -/
structure Response where
  agent_name : String
  content : List AgentResponse
deriving DecidableEq, Repr, Inhabited

/-- Modelled from the spec: the repository imports `GraphState` from
`my_agent/state.py`, which is not among the source files; per the spec the
workflow engine merges each node's partial update into the state by key
(overwrite, not deep-merge).  Accordingly the state is a record holding
every key the upper-graph nodes read or write, and each embedded node
function updates exactly the keys whose dict it returns, leaving the rest
unchanged.  Keys a Python node would find missing are modelled by the
listed defaults; no claim in scope depends on a missing-key read. -/
structure GraphState where
  question : String := ""
  responses : List Response := []
  discarded_responses : List Response := []
  index : Nat := 0
  threads : Nat := 0
  beams : Nat := 0
  revisions : Nat := 0
  start : Nat := 0
  initial_response_agent : String := ""
  agent_response : AgentResponse := default
  done : Bool := false
  final_response : String := ""
  difficulty : Nat := 0
deriving DecidableEq, Repr, Inhabited

/-- The sort key of `beam_search_agent`: `x["content"][-1]["score"]`.
Python raises `IndexError` on an empty history; every thread in a reachable
state is created with a one-entry history, so the `none` branch is never
exercised there, and the claims about selection assume scored threads. -/
def latestScore (r : Response) : ℚ :=
  match r.content.getLast? with
  | some a => a.score
  | none => 0

/-- The comparison realised by `responses.sort(key=..., reverse=True)`:
`a` may precede `b` when `a`'s latest score is at least `b`'s. -/
def scoreGe (a b : Response) : Prop :=
  latestScore b ≤ latestScore a

instance : DecidableRel scoreGe :=
  fun a b => inferInstanceAs (Decidable (latestScore b ≤ latestScore a))

instance : IsTotal Response scoreGe :=
  ⟨fun a b => le_total (latestScore b) (latestScore a)⟩

instance : IsTrans Response scoreGe :=
  ⟨fun _ _ _ h1 h2 => le_trans h2 h1⟩

/-- `responses.sort(key=lambda x: x["content"][-1]["score"], reverse=True)`:
Python's sort is stable, so the list order is the stable descending sort by
latest score; insertion sort realises exactly that order. -/
def sortDescByLatestScore (rs : List Response) : List Response :=
  rs.insertionSort scoreGe

/-- Core of `beam_search_agent` (upper_agents.py:312-338): sort by latest
score descending, keep the first `beams` threads, discard the rest, then
refill by appending `threads // beams` copies of each kept thread followed
by one extra copy of each of the first `threads %% beams` kept threads.
Returns `(final_responses, bad_responses)`.  `copy.deepcopy` is the
identity on values here; the aliasing content of deep copying is modelled
separately on a heap (`beam_search_heap`). -/
def beam_search_core (responses : List Response) (beams threads : Nat) :
    List Response × List Response :=
  let sorted := sortDescByLatestScore responses
  let best_responses := sorted.take beams
  let bad_responses := sorted.drop beams
  let final_responses :=
    (best_responses.map (fun r => List.replicate (threads / beams) r)).flatten
      ++ best_responses.take (threads % beams)
  (final_responses, bad_responses)

/-- The `beam_search_agent` node: returns
`{"responses": final_responses, "discarded_responses": bad_responses, "index": 0}`,
merged into the state by key overwrite. -/
def beam_search_agent (s : GraphState) : GraphState :=
  { s with
    responses := (beam_search_core s.responses s.beams s.threads).1
    discarded_responses := (beam_search_core s.responses s.beams s.threads).2
    index := 0 }

/-- The `ask_question` node: returns
`{"initial_response_agent": "GPT", "responses": [], "threads": 3, "start": 1}`. -/
def ask_question (s : GraphState) : GraphState :=
  { s with
    initial_response_agent := "GPT"
    responses := []
    threads := 3
    start := 1 }

/-- The rotation table of `initial_response_handler`
(`{"GPT": "Claude", "Claude": "Mistral", "Mistral": "GPT"}`); a lookup of
any other name raises `KeyError`, modelled by `none`. -/
def agent_name_dict (a : String) : Option String :=
  if a = "GPT" then some "Claude"
  else if a = "Claude" then some "Mistral"
  else if a = "Mistral" then some "GPT"
  else none

/-- `initial_response_handler`: append a fresh one-entry thread recording the
pending `agent_response` under the current backend identity, and rotate the
backend for the next initial response. -/
def initial_response_handler (s : GraphState) : Option GraphState :=
  (agent_name_dict s.initial_response_agent).map fun nxt =>
    { s with
      responses :=
        s.responses ++ [⟨s.initial_response_agent, [s.agent_response]⟩]
      initial_response_agent := nxt }

/-- `revised_response_handler`: `responses[index]["content"].append(agent_response)`
then `{"responses": responses, "index": index + 1}`.  An out-of-range index
raises `IndexError`, modelled by `none`. -/
def revised_response_handler (s : GraphState) : Option GraphState :=
  if h : s.index < s.responses.length then
    let r := s.responses.get ⟨s.index, h⟩
    some { s with
      responses :=
        s.responses.set s.index { r with content := r.content ++ [s.agent_response] }
      index := s.index + 1 }
  else none

/-- The result of joining the per-agent generation subgraph back into the
upper graph (`join_graph`): `{"agent_response": {"text": final_answer}}`.
The Python dict has only the `"text"` key at this point; the missing
`"comments"`/`"score"` keys are the record defaults until the commenter and
scorer nodes fill them. -/
def join_graph (s : GraphState) (final_answer : String) : GraphState :=
  { s with agent_response := ⟨final_answer, "", 0⟩ }

/-- `create_commenter_agent`: attaches the critique model's reply as
`agent_response["comments"]`.  The reply is an oracle input. -/
def create_commenter_agent (s : GraphState) (comments : String) : GraphState :=
  { s with agent_response := { s.agent_response with comments := comments } }

/-- `create_scorer_agent`: attaches `float(score)` as
`agent_response["score"]`.  The successfully parsed score is an oracle
input; a malformed reply raises `ValueError` and aborts the run, so it has
no successor state. -/
def create_scorer_agent (s : GraphState) (score : ℚ) : GraphState :=
  { s with agent_response := { s.agent_response with score := score } }

/-- The per-parameter record in `difficulty_dict`. -/
structure DifficultyParams where
  difficulty : Nat
  threads : Nat
  beams : Nat
  start : Nat
  revisions : Nat
deriving DecidableEq, Repr

/-- The literal `difficulty_dict` of `create_difficulty_agent`
(upper_agents.py:138-167), keyed by the classifier's raw string reply;
a lookup of any other reply raises `KeyError`, modelled by `none`. -/
def difficulty_dict (t : String) : Option DifficultyParams :=
  if t = "1" then some ⟨1, 3, 3, 0, 4⟩
  else if t = "2" then some ⟨2, 5, 3, 0, 3⟩
  else if t = "3" then some ⟨3, 7, 3, 0, 2⟩
  else if t = "4" then some ⟨4, 9, 3, 0, 1⟩
  else none

/-- `create_difficulty_agent`: reads the text / comments / score of the
first three bootstrap threads into the prompt (raising if fewer than three
threads exist or any history is empty), asks the classifier (oracle input
`tier`), and returns `difficulty_dict[tier]` merged into the state. -/
def create_difficulty_agent (s : GraphState) (tier : String) : Option GraphState :=
  if 3 ≤ s.responses.length ∧ ∀ r ∈ s.responses, r.content ≠ [] then
    (difficulty_dict tier).map fun p =>
      { s with
        difficulty := p.difficulty
        threads := p.threads
        beams := p.beams
        start := p.start
        revisions := p.revisions }
  else none

/-- `create_check_done_agent`: `{"done": result.content == "PROCESS DONE"}`,
with the convergence model's reply as oracle input. -/
def create_check_done_agent (s : GraphState) (reply : String) : GraphState :=
  { s with done := reply == "PROCESS DONE" }

/-- Rendering of one history entry inside `str(responses)` as interpolated
into the final-summary prompt.  The exact punctuation of Python's `str` is
inessential; what matters is that every entry — text, comments and score —
appears in the prompt. -/
def strAgentResponse (a : AgentResponse) : String :=
  "\x7btext: " ++ a.text ++ ", comments: " ++ a.comments ++
    ", score: " ++ toString a.score ++ "\x7d"

/-- Rendering of one thread's full history inside `str(responses)`. -/
def strContent (c : List AgentResponse) : String :=
  "[" ++ String.intercalate ", " (c.map strAgentResponse) ++ "]"

/-- Rendering of `str(responses)` after
`responses = [response["content"] for response in responses]`:
the full history of every thread. -/
def strChains (rs : List Response) : String :=
  "[" ++ String.intercalate ", " (rs.map (fun r => strContent r.content)) ++ "]"

/-- The human message of `prompt3` in `create_final_summary_agent`: it
interpolates `str(responses)`, i.e. every history entry of every thread. -/
def final_summary_prompt (question : String) (rs : List Response) : String :=
  "Here is the question: " ++ question ++ " \n" ++
    "Here are the reasoning chains: " ++ strChains rs ++ " \n"

/-- `create_final_summary_agent`: sends the question and the rendered
reasoning chains to the aggregation model (`llm`, an oracle from prompt to
reply) and returns `{"final_response": result.content}`. -/
def create_final_summary_agent (s : GraphState) (llm : String → String) :
    GraphState :=
  { s with final_response := llm (final_summary_prompt s.question s.responses) }

/-- `get_info_for_revision_response`: reads
`(question, responses[index]["agent_name"], responses[index]["content"][-1]["text"],
responses[index]["content"][-1]["comments"])`; an out-of-range index or an
empty history raises, modelled by `none`. -/
def get_info_for_revision_response (s : GraphState) :
    Option (String × String × String × String) :=
  match s.responses[s.index]? with
  | none => none
  | some r =>
    match r.content.getLast? with
    | none => none
    | some a => some (s.question, r.agent_name, a.text, a.comments)

/-- `scorer_router` (agent.py:96-113). -/
def scorer_router (s : GraphState) : String :=
  if s.start ≠ 0 ∨ s.responses.length < s.threads then "initial_response_handler"
  else "revised_response_handler"

/-- `initial_response_router` (agent.py:36-55). -/
def initial_response_router (s : GraphState) : String :=
  if s.responses.length < s.threads then "get_initial_response"
  else if s.start ≠ 0 then "difficulty_assessment"
  else "beam_search_agent"

/-- `difficulty_router` (agent.py:57-73). -/
def difficulty_router (s : GraphState) : String :=
  if s.responses.length < s.threads then "get_initial_response"
  else "beam_search_agent"

/-- `revision_router` (agent.py:75-94): the budget check inspects
`responses[-1]` — the *last* thread — and is evaluated before the
round-completion check.  `responses[-1]` on an empty list raises,
modelled by `none`. -/
def revision_router (s : GraphState) : Option String :=
  match s.responses.getLast? with
  | none => none
  | some r =>
    if r.content.length = s.revisions + 1 then some "summary"
    else if s.index = s.threads then some "check_done"
    else some "get_revision_response"

/-- `done_router` (agent.py:115-128). -/
def done_router (s : GraphState) : String :=
  if s.done then "__end__" else "continue"

example :
    beam_search_core
      [⟨"GPT", [⟨"a", "", 9⟩]⟩, ⟨"Claude", [⟨"b", "", 8⟩]⟩,
       ⟨"Mistral", [⟨"c", "", 7⟩]⟩, ⟨"GPT", [⟨"d", "", 6⟩]⟩,
       ⟨"Claude", [⟨"e", "", 5⟩]⟩] 3 5 =
    ([⟨"GPT", [⟨"a", "", 9⟩]⟩, ⟨"Claude", [⟨"b", "", 8⟩]⟩,
      ⟨"Mistral", [⟨"c", "", 7⟩]⟩, ⟨"GPT", [⟨"a", "", 9⟩]⟩,
      ⟨"Claude", [⟨"b", "", 8⟩]⟩],
     [⟨"GPT", [⟨"d", "", 6⟩]⟩, ⟨"Claude", [⟨"e", "", 5⟩]⟩]) := by
  decide

/-- The nodes of the compiled upper graph (`graph` in agent.py:284-339).
`commenter` and `scorer` are shared by the initial and revision passes, as
in the source; `endNode` is LangGraph's `END`. -/
inductive GNode where
  | ask_question
  | get_initial_response
  | get_revision_response
  | commenter
  | scorer
  | initial_handler
  | revised_handler
  | difficulty_assessment
  | beam_search
  | check_done
  | final_summary
  | endNode
deriving DecidableEq, Repr, Inhabited

/-- Oracle input consumed by one node execution: `text` for any external
model reply (generated answer, comments, classifier tier, convergence
verdict, summary), `score` for the parsed scorer reply, `tick` for nodes
that call no external model. -/
inductive OracleIn where
  | text (t : String)
  | score (x : ℚ)
  | tick
deriving DecidableEq, Repr

/-- A machine state: the shared `GraphState` plus the node about to run. -/
structure MState where
  gs : GraphState
  node : GNode
deriving DecidableEq, Repr, Inhabited

/-- Whether the generation subgraph can dispatch to this backend identity:
its entry edge routes on `sender` with destinations `GPT`, `Claude` and
`Mistral` only; any other label is a fatal routing error. -/
def validSender (a : String) : Bool :=
  a = "GPT" || a = "Claude" || a = "Mistral"

/-- One execution step of the compiled upper graph: run the node's
function on the state (with its oracle input where the node calls an
external model), then follow the node's outgoing edge — conditional edges
apply the router to the merged state and map its label through the edge
dict of `add_conditional_edges`.  `none` models a fatal error (unhandled
exception in a node, or a router label with no destination). -/
def graphStep (m : MState) (i : OracleIn) : Option MState :=
  match m.node, i with
  | .ask_question, .tick =>
    some ⟨ask_question m.gs, .get_initial_response⟩
  | .get_initial_response, .text t =>
    if validSender m.gs.initial_response_agent then
      some ⟨join_graph m.gs t, .commenter⟩
    else none
  | .get_revision_response, .text t =>
    match get_info_for_revision_response m.gs with
    | none => none
    | some info =>
      if validSender info.2.1 then some ⟨join_graph m.gs t, .commenter⟩
      else none
  | .commenter, .text c =>
    some ⟨create_commenter_agent m.gs c, .scorer⟩
  | .scorer, .score x =>
    let gs := create_scorer_agent m.gs x
    if scorer_router gs = "initial_response_handler" then some ⟨gs, .initial_handler⟩
    else if scorer_router gs = "revised_response_handler" then some ⟨gs, .revised_handler⟩
    else none
  | .initial_handler, .tick =>
    match initial_response_handler m.gs with
    | none => none
    | some gs =>
      if initial_response_router gs = "get_initial_response" then
        some ⟨gs, .get_initial_response⟩
      else if initial_response_router gs = "difficulty_assessment" then
        some ⟨gs, .difficulty_assessment⟩
      else if initial_response_router gs = "beam_search_agent" then
        some ⟨gs, .beam_search⟩
      else none
  | .difficulty_assessment, .text t =>
    match create_difficulty_agent m.gs t with
    | none => none
    | some gs =>
      if difficulty_router gs = "get_initial_response" then
        some ⟨gs, .get_initial_response⟩
      else if difficulty_router gs = "beam_search_agent" then
        some ⟨gs, .beam_search⟩
      else none
  | .beam_search, .tick =>
    some ⟨beam_search_agent m.gs, .get_revision_response⟩
  | .revised_handler, .tick =>
    match revised_response_handler m.gs with
    | none => none
    | some gs =>
      match revision_router gs with
      | none => none
      | some lbl =>
        if lbl = "get_revision_response" then some ⟨gs, .get_revision_response⟩
        else if lbl = "check_done" then some ⟨gs, .check_done⟩
        else if lbl = "summary" then some ⟨gs, .final_summary⟩
        else none
  | .check_done, .text t =>
    let gs := create_check_done_agent m.gs t
    if done_router gs = "continue" then some ⟨gs, .beam_search⟩
    else if done_router gs = "__end__" then some ⟨gs, .final_summary⟩
    else none
  | .final_summary, .text t =>
    some ⟨create_final_summary_agent m.gs (fun _ => t), .endNode⟩
  | _, _ => none

/-- Run the graph from a state through a list of oracle inputs. -/
def graphRun (m : MState) : List OracleIn → Option MState
  | [] => some m
  | i :: is =>
    match graphStep m i with
    | none => none
    | some m' => graphRun m' is

/-- The entry state of a run: a fresh state holding the question, about to
execute the entry point `ask_question`. -/
def initM (q : String) : MState :=
  ⟨{ question := q }, .ask_question⟩

/-- A machine state reachable in some run of the compiled graph. -/
def ReachableM (m : MState) : Prop :=
  ∃ q ins, graphRun (initM q) ins = some m

/-! ### Lemmas about the selection step -/

theorem length_sortDescByLatestScore (rs : List Response) :
    (sortDescByLatestScore rs).length = rs.length :=
  (List.perm_insertionSort scoreGe rs).length_eq

theorem mem_sortDescByLatestScore {rs : List Response} {x : Response} :
    x ∈ sortDescByLatestScore rs ↔ x ∈ rs :=
  (List.perm_insertionSort scoreGe rs).mem_iff

theorem length_flatten_map_replicate (k : Nat) (l : List Response) :
    ((l.map (fun r => List.replicate k r)).flatten).length = l.length * k := by
  induction l with
  | nil => simp
  | cons a t ih => simp [ih, Nat.succ_mul, Nat.add_comm]

theorem mem_flatten_map_replicate {k : Nat} {l : List Response} {x : Response}
    (hx : x ∈ (l.map (fun r => List.replicate k r)).flatten) : x ∈ l := by
  rcases List.mem_flatten.mp hx with ⟨c, hc, hxc⟩
  rcases List.mem_map.mp hc with ⟨r, hr, rfl⟩
  exact (List.eq_of_mem_replicate hxc) ▸ hr

theorem mem_of_mem_beam_core_kept {rs : List Response} {b t : Nat} {x : Response}
    (hx : x ∈ (beam_search_core rs b t).1) : x ∈ rs := by
  unfold beam_search_core at hx
  rcases List.mem_append.mp hx with h | h
  · exact mem_sortDescByLatestScore.mp
      (List.mem_of_mem_take (mem_flatten_map_replicate h))
  · exact mem_sortDescByLatestScore.mp
      (List.mem_of_mem_take (List.mem_of_mem_take h))

theorem mem_of_mem_beam_core_discarded {rs : List Response} {b t : Nat} {x : Response}
    (hx : x ∈ (beam_search_core rs b t).2) : x ∈ rs := by
  unfold beam_search_core at hx
  exact mem_sortDescByLatestScore.mp (List.mem_of_mem_drop hx)

theorem beam_core_length {rs : List Response} {b t : Nat}
    (hlen : rs.length = t) (hb1 : 1 ≤ b) (hbt : b ≤ t) :
    (beam_search_core rs b t).1.length = t := by
  have hs : (sortDescByLatestScore rs).length = t := by
    rw [length_sortDescByLatestScore, hlen]
  have hbest : ((sortDescByLatestScore rs).take b).length = b := by
    rw [List.length_take, hs]
    omega
  have hmod : t % b < b := Nat.mod_lt t hb1
  unfold beam_search_core
  simp only [List.length_append, length_flatten_map_replicate, hbest,
    List.length_take]
  have : min (t % b) b = t % b := by omega
  rw [this]
  exact Nat.div_add_mod t b

/-- Inserting a thread into a list moves it past exactly the threads whose
latest score is strictly greater, so the sublist of threads with any given
latest score `s` gains `a` at the front when `latestScore a = s` and is
unchanged otherwise. -/
theorem filter_score_orderedInsert (s : ℚ) (a : Response) (l : List Response) :
    (List.orderedInsert scoreGe a l).filter (fun r => decide (latestScore r = s)) =
      if latestScore a = s then
        a :: l.filter (fun r => decide (latestScore r = s))
      else l.filter (fun r => decide (latestScore r = s)) := by
  induction l with
  | nil =>
    by_cases ha : latestScore a = s <;> simp [List.orderedInsert, ha]
  | cons b t ih =>
    by_cases hab : scoreGe a b
    · by_cases ha : latestScore a = s <;>
        by_cases hb : latestScore b = s <;>
          simp [List.orderedInsert, hab, ha, hb]
    · by_cases hb : latestScore b = s
      · have ha : latestScore a ≠ s := by
          intro ha
          exact hab (by rw [scoreGe, ha, hb])
        simp [List.orderedInsert, hab, ha, hb, ih]
      · by_cases ha : latestScore a = s <;>
          simp [List.orderedInsert, hab, ha, hb, ih]

/-- Stability of the selection sort: for every score value, the threads
carrying that latest score appear in the sorted list in their original
relative order. -/
theorem filter_score_sortDescByLatestScore (s : ℚ) (rs : List Response) :
    (sortDescByLatestScore rs).filter (fun r => decide (latestScore r = s)) =
      rs.filter (fun r => decide (latestScore r = s)) := by
  induction rs with
  | nil => rfl
  | cons a t ih =>
    have hstep : sortDescByLatestScore (a :: t) =
        List.orderedInsert scoreGe a (sortDescByLatestScore t) := rfl
    rw [hstep, filter_score_orderedInsert]
    by_cases ha : latestScore a = s <;> simp [ha, ih]

/-- Filtering a list's first `n` elements yields an initial segment of the
filtered list. -/
theorem filter_take_eq_take_filter (p : Response → Bool) :
    ∀ (l : List Response) (n : Nat), ∃ m, (l.take n).filter p = (l.filter p).take m := by
  intro l
  induction l with
  | nil => intro n; exact ⟨0, by simp⟩
  | cons a t ih =>
    intro n
    match n with
    | 0 => exact ⟨0, by simp⟩
    | n + 1 =>
      rcases ih n with ⟨m, hm⟩
      by_cases ha : p a
      · exact ⟨m + 1, by simp [ha, hm]⟩
      · exact ⟨m, by simp [ha, hm]⟩

theorem filter_flatten_map_replicate (p : Response → Bool) (k : Nat)
    (l : List Response) :
    ((l.map (fun r => List.replicate k r)).flatten).filter p =
      ((l.filter p).map (fun r => List.replicate k r)).flatten := by
  induction l with
  | nil => rfl
  | cons a t ih =>
    by_cases ha : p a <;>
      simp [List.filter_append, List.filter_replicate, ha, ih]

/-- The five concrete threads of spec Scenario B, with latest scores
`[9, 8, 7, 6, 5]`. -/
def thA : Response := ⟨"GPT", [⟨"a", "ca", 9⟩]⟩

def thB : Response := ⟨"Claude", [⟨"b", "cb", 8⟩]⟩

def thC : Response := ⟨"Mistral", [⟨"c", "cc", 7⟩]⟩

def thD : Response := ⟨"GPT", [⟨"d", "cd", 6⟩]⟩

def thE : Response := ⟨"Claude", [⟨"e", "ce", 5⟩]⟩

/-- C1: for every population whose thread list has length `threadCount` and
every `beamWidth` with `1 <= beamWidth <= threadCount`, the population
returned by a `beam_search_agent` call has a thread list of length exactly
`threadCount`. -/
theorem beam_selection_preserves_thread_count (s : GraphState)
    (hlen : s.responses.length = s.threads)
    (hb1 : 1 ≤ s.beams) (hbt : s.beams ≤ s.threads) :
    (beam_search_agent s).responses.length = s.threads :=
  beam_core_length hlen hb1 hbt

/-- Witness for C1: a five-thread population with `beamWidth = 3` keeps
exactly five threads through selection. -/
theorem beam_selection_preserves_thread_count_witness :
    ([thA, thB, thC, thD, thE].length = 5 ∧ 1 ≤ 3 ∧ 3 ≤ 5) ∧
      (beam_search_agent
        { responses := [thA, thB, thC, thD, thE], beams := 3, threads := 5 }).responses.length = 5 :=
  ⟨by decide,
    beam_selection_preserves_thread_count
      { responses := [thA, thB, thC, thD, thE], beams := 3, threads := 5 }
      (by decide) (by decide) (by decide)⟩

/-- C2: beam-search selection keeps the top `beamWidth` threads by latest
score (every kept thread's latest score is at least every discarded one's),
moves the rest to `discarded`, clones each kept thread
`threadCount / beamWidth` times and gives the first `threadCount % beamWidth`
kept threads one additional clone each, appended after the blocks; in
particular five threads scored `[9,8,7,6,5]` with `beamWidth = 3`,
`threadCount = 5` yield kept `A,B,C`, result `[A,B,C,A',B']` and `D,E`
discarded. -/
theorem beam_selection_keeps_clones_discards (rs : List Response) (b t : Nat) :
    ((beam_search_core rs b t).2 = (sortDescByLatestScore rs).drop b) ∧
    ((beam_search_core rs b t).1 =
      (((sortDescByLatestScore rs).take b).map
        (fun r => List.replicate (t / b) r)).flatten
        ++ ((sortDescByLatestScore rs).take b).take (t % b)) ∧
    (∀ x ∈ (sortDescByLatestScore rs).take b,
      ∀ y ∈ (beam_search_core rs b t).2, latestScore y ≤ latestScore x) ∧
    (beam_search_core [thA, thB, thC, thD, thE] 3 5 =
      ([thA, thB, thC, thA, thB], [thD, thE])) := by
  refine ⟨rfl, rfl, ?_, by decide⟩
  intro x hx y hy
  exact (List.sorted_insertionSort scoreGe rs).rel_of_mem_take_of_mem_drop hx hy

/-- Witness for C2's selection-ordering conjunct: in Scenario B the kept
thread `A` outranks the discarded thread `D`. -/
theorem beam_selection_keeps_clones_discards_witness :
    latestScore thD ≤ latestScore thA :=
  (beam_selection_keeps_clones_discards [thA, thB, thC, thD, thE] 3 5).2.2.1
    thA (by decide) thD (by decide)

/-- C6: selection sorts by latest score descending with ties broken by
original position: the sorted list is descending under `scoreGe`, threads
of equal latest score keep their original relative order through the sort,
the kept threads of any given score form an initial segment of the original
equal-score threads in their original order, and the final population lists
the equal-score kept threads in that same order — replicated blockwise and
then once more for the extra clones.  Selection is a pure function of the
population, hence deterministic. -/
theorem beam_selection_stable (rs : List Response) :
    ((sortDescByLatestScore rs).Sorted scoreGe) ∧
    (∀ s : ℚ,
      (sortDescByLatestScore rs).filter (fun r => decide (latestScore r = s)) =
        rs.filter (fun r => decide (latestScore r = s))) ∧
    (∀ (s : ℚ) (b : Nat), ∃ m,
      ((sortDescByLatestScore rs).take b).filter (fun r => decide (latestScore r = s)) =
        (rs.filter (fun r => decide (latestScore r = s))).take m) ∧
    (∀ (s : ℚ) (b t : Nat),
      ((beam_search_core rs b t).1).filter (fun r => decide (latestScore r = s)) =
        ((((sortDescByLatestScore rs).take b).filter
            (fun r => decide (latestScore r = s))).map
          (fun r => List.replicate (t / b) r)).flatten
          ++ (((sortDescByLatestScore rs).take b).take (t % b)).filter
              (fun r => decide (latestScore r = s))) := by
  refine ⟨List.sorted_insertionSort scoreGe rs,
    fun s => filter_score_sortDescByLatestScore s rs, ?_, ?_⟩
  · intro s b
    rcases filter_take_eq_take_filter (fun r => decide (latestScore r = s))
      (sortDescByLatestScore rs) b with ⟨m, hm⟩
    exact ⟨m, by rw [hm, filter_score_sortDescByLatestScore]⟩
  · intro s b t
    show ((((sortDescByLatestScore rs).take b).map
        (fun r => List.replicate (t / b) r)).flatten
          ++ ((sortDescByLatestScore rs).take b).take (t % b)).filter
        (fun r => decide (latestScore r = s)) = _
    rw [List.filter_append, filter_flatten_map_replicate]

/-- A previously discarded thread, present in the audit trail before a
selection call. -/
def dOld : Response := ⟨"Mistral", [⟨"old", "co", 1⟩]⟩

/-- A state about to run selection while `discarded_responses` already
holds `dOld` from an earlier selection call. -/
def c4State : GraphState :=
  { responses := [thA, thB, thC], discarded_responses := [dOld],
    beams := 3, threads := 3 }

/-- Counterexample to C4: `beam_search_agent` returns
`{"discarded_responses": bad_responses}` and the engine merges by key
overwrite, so a thread discarded by an earlier call is gone after the next
call — the trail is not append-only. -/
theorem beam_selection_discard_overwrites_cex :
    dOld ∈ c4State.discarded_responses ∧
      dOld ∉ (beam_search_agent c4State).discarded_responses := by
  decide

/-- C4 amended: after each selection call, `discarded_responses` holds
exactly the threads culled by that call — the below-cutoff tail of the
sorted population; it is replaced wholesale, independent of whatever was
discarded before, rather than appended to. -/
theorem beam_selection_discard_replaced (s : GraphState) :
    ((beam_search_agent s).discarded_responses =
      (sortDescByLatestScore s.responses).drop s.beams) ∧
    (∀ s' : GraphState, s'.responses = s.responses → s'.beams = s.beams →
      (beam_search_agent s').discarded_responses =
        (beam_search_agent s).discarded_responses) ∧
    (∀ x ∈ (beam_search_agent s).discarded_responses, x ∈ s.responses) := by
  refine ⟨rfl, ?_, ?_⟩
  · intro s' h1 h2
    show (beam_search_core s'.responses s'.beams s'.threads).2 =
      (beam_search_core s.responses s.beams s.threads).2
    unfold beam_search_core
    rw [h1, h2]
  · intro x hx
    have hx' : x ∈ (beam_search_core s.responses s.beams s.threads).2 := hx
    exact mem_of_mem_beam_core_discarded hx'

/-- `c4State` with a different pre-existing audit trail. -/
def c4StateB : GraphState :=
  { responses := [thA, thB, thC], discarded_responses := [],
    beams := 3, threads := 3 }

/-- Witness for C4's amended theorem, applied at the concrete states. -/
theorem beam_selection_discard_replaced_witness :
    ((beam_search_agent c4State).discarded_responses = []) ∧
      (beam_search_agent c4StateB).discarded_responses =
        (beam_search_agent c4State).discarded_responses :=
  ⟨((beam_selection_discard_replaced c4State).1).trans (by decide),
    (beam_selection_discard_replaced c4State).2.1 c4StateB rfl rfl⟩

/-- C5: the difficulty-to-config mapping is total over the classifier
replies `"1"`–`"4"`, returning exactly the table of the spec (with
`beamWidth <= threadCount` in every row), and any other classifier reply
makes both the lookup and the difficulty node fail (`KeyError`) rather
than default. -/
theorem difficulty_mapping_total :
    (difficulty_dict "1" = some ⟨1, 3, 3, 0, 4⟩ ∧
      difficulty_dict "2" = some ⟨2, 5, 3, 0, 3⟩ ∧
      difficulty_dict "3" = some ⟨3, 7, 3, 0, 2⟩ ∧
      difficulty_dict "4" = some ⟨4, 9, 3, 0, 1⟩) ∧
    (∀ t p, difficulty_dict t = some p → p.beams ≤ p.threads) ∧
    (∀ t, t ∉ (["1", "2", "3", "4"] : List String) → difficulty_dict t = none) ∧
    (∀ (s : GraphState) t, difficulty_dict t = none →
      create_difficulty_agent s t = none) := by
  refine ⟨by decide, ?_, ?_, ?_⟩
  · intro t p h
    unfold difficulty_dict at h
    split_ifs at h <;> (simp only [Option.some.injEq] at h; subst h; decide)
  · intro t ht
    simp only [List.mem_cons, List.not_mem_nil, or_false, not_or] at ht
    simp [difficulty_dict, ht.1, ht.2.1, ht.2.2.1, ht.2.2.2]
  · intro s t h
    unfold create_difficulty_agent
    split
    · rw [h]; rfl
    · rfl

/-- Witness for C5: the classifier reply `"7"` is outside the table and
yields a fatal lookup failure, not a default configuration. -/
theorem difficulty_mapping_total_witness :
    ("7" ∉ (["1", "2", "3", "4"] : List String)) ∧
      difficulty_dict "7" = none ∧
      create_difficulty_agent {} "7" = none :=
  ⟨by decide, difficulty_mapping_total.2.2.1 "7" (by decide),
    difficulty_mapping_total.2.2.2 {} "7"
      (difficulty_mapping_total.2.2.1 "7" (by decide))⟩

/-! ### Round-boundary invariant of the compiled graph -/

/-- All listed threads have history length `n`. -/
def allLen (rs : List Response) (n : Nat) : Prop :=
  ∀ r ∈ rs, r.content.length = n

/-- Invariant of the bootstrap phase, while more initial responses are
still to be generated: the population is short of `threads`, every thread
has exactly its initial response, the rotating backend identity is
dispatchable, the difficulty configuration (once installed, i.e. once
`start = 0`) satisfies `1 <= beams <= threads`, and before the difficulty
node runs (`start /= 0`) the bootstrap sizing `threads = 3` is in force. -/
def BootInv (s : GraphState) : Prop :=
  s.responses.length < s.threads ∧
  allLen s.responses 1 ∧
  validSender s.initial_response_agent = true ∧
  (s.start = 0 → 1 ≤ s.beams ∧ s.beams ≤ s.threads) ∧
  (s.start ≠ 0 → s.threads = 3)

/-- Invariant when the difficulty node is about to run: exactly the three
bootstrap responses exist, each with a one-entry history. -/
def DiffInv (s : GraphState) : Prop :=
  s.responses.length = 3 ∧ s.threads = 3 ∧ allLen s.responses 1 ∧
  validSender s.initial_response_agent = true

/-- Invariant at a round boundary (selection about to run, or the
convergence gate consulted): a full population of `threads` threads whose
histories all have one common length. -/
def BeamInv (s : GraphState) : Prop :=
  s.start = 0 ∧ s.responses.length = s.threads ∧
  1 ≤ s.beams ∧ s.beams ≤ s.threads ∧
  ∃ L, 1 ≤ L ∧ allLen s.responses L

/-- Invariant inside a revision round: the first `index` threads carry the
new revision (history length `L + 1`), the remaining threads still have
length `L`. -/
def RevInv (s : GraphState) : Prop :=
  s.start = 0 ∧ s.responses.length = s.threads ∧
  1 ≤ s.beams ∧ s.beams ≤ s.threads ∧ s.index ≤ s.threads ∧
  ∃ L, 1 ≤ L ∧ ∀ (i : Nat) (h : i < s.responses.length),
    (s.responses.get ⟨i, h⟩).content.length = if i < s.index then L + 1 else L

/-- `RevInv` with the cursor strictly inside the round: the thread at
`index` still awaits its revision. -/
def RevMid (s : GraphState) : Prop :=
  RevInv s ∧ s.index < s.threads

/-- The inductive invariant of the compiled upper graph, per node about to
execute. -/
def GraphInv (m : MState) : Prop :=
  match m.node with
  | .ask_question => True
  | .get_initial_response => BootInv m.gs
  | .commenter => BootInv m.gs ∨ RevMid m.gs
  | .scorer => BootInv m.gs ∨ RevMid m.gs
  | .initial_handler => BootInv m.gs
  | .revised_handler => RevMid m.gs
  | .difficulty_assessment => DiffInv m.gs
  | .beam_search => BeamInv m.gs
  | .get_revision_response => RevMid m.gs
  | .check_done => BeamInv m.gs
  | .final_summary => True
  | .endNode => True

theorem agent_name_dict_valid {a b : String} (h : agent_name_dict a = some b) :
    validSender b = true := by
  unfold agent_name_dict at h
  split_ifs at h <;> first
    | (cases h; decide)
    | exact Option.noConfusion h

theorem difficulty_dict_bounds {t : String} {p : DifficultyParams}
    (h : difficulty_dict t = some p) :
    p.beams = 3 ∧ 3 ≤ p.threads ∧ p.start = 0 ∧ p.beams ≤ p.threads := by
  unfold difficulty_dict at h
  split_ifs at h <;> first
    | (cases h; decide)
    | exact Option.noConfusion h

/-- What one `initial_response_handler` call does to the state fields the
routers and invariants read. -/
theorem initial_handler_spec {s gs2 : GraphState}
    (h : initial_response_handler s = some gs2) :
    gs2.responses.length = s.responses.length + 1 ∧
    gs2.threads = s.threads ∧
    gs2.beams = s.beams ∧
    gs2.start = s.start ∧
    validSender gs2.initial_response_agent = true ∧
    (allLen s.responses 1 → allLen gs2.responses 1) := by
  unfold initial_response_handler at h
  cases had : agent_name_dict s.initial_response_agent with
  | none => rw [had] at h; exact Option.noConfusion h
  | some nxt =>
    rw [had] at h
    simp only [Option.map_some'] at h
    cases h
    refine ⟨by simp, rfl, rfl, rfl, agent_name_dict_valid had, ?_⟩
    intro hall r hr
    rcases List.mem_append.mp hr with hm | hm
    · exact hall r hm
    · rw [List.mem_singleton.mp hm]
      rfl

/-- What one `create_difficulty_agent` call does to the state fields the
routers and invariants read. -/
theorem difficulty_agent_spec {s gs2 : GraphState} {t : String}
    (h : create_difficulty_agent s t = some gs2) :
    gs2.responses = s.responses ∧
    gs2.start = 0 ∧
    gs2.beams = 3 ∧
    3 ≤ gs2.threads ∧
    gs2.beams ≤ gs2.threads ∧
    gs2.initial_response_agent = s.initial_response_agent := by
  unfold create_difficulty_agent at h
  split_ifs at h with hg
  · cases hd : difficulty_dict t with
    | none => rw [hd] at h; exact Option.noConfusion h
    | some p =>
      rw [hd] at h
      simp only [Option.map_some'] at h
      obtain ⟨hb3, hth3, hs0, hble⟩ := difficulty_dict_bounds hd
      cases h
      exact ⟨rfl, hs0, hb3, hth3, hble, rfl⟩

/-- What one `revised_response_handler` call does to the state: the history
of the thread at `index` grows by one entry, every other thread is
untouched, and the cursor advances. -/
theorem revised_handler_spec {s gs2 : GraphState}
    (h : revised_response_handler s = some gs2) :
    s.index < s.responses.length ∧
    gs2.responses.length = s.responses.length ∧
    gs2.threads = s.threads ∧
    gs2.beams = s.beams ∧
    gs2.start = s.start ∧
    gs2.revisions = s.revisions ∧
    gs2.index = s.index + 1 ∧
    (∀ (j : Nat) (hj : j < gs2.responses.length) (hj' : j < s.responses.length),
      (gs2.responses.get ⟨j, hj⟩).content.length =
        if j = s.index then (s.responses.get ⟨j, hj'⟩).content.length + 1
        else (s.responses.get ⟨j, hj'⟩).content.length) := by
  unfold revised_response_handler at h
  split_ifs at h with hin
  · simp only [Option.some.injEq] at h
    subst h
    refine ⟨hin, by simp, rfl, rfl, rfl, rfl, rfl, ?_⟩
    intro j hj hj'
    simp only [List.get_eq_getElem]
    by_cases hje : j = s.index
    · subst hje
      rw [if_pos rfl, List.getElem_set_self (by simpa using hj')]
      show ((s.responses.get ⟨s.index, hj'⟩).content ++ [s.agent_response]).length = _
      rw [List.length_append]
      rfl
    · rw [if_neg hje, List.getElem_set_ne (fun hc => hje hc.symm)]

theorem graphStep_inv {m m' : MState} {i : OracleIn}
    (hInv : GraphInv m) (hstep : graphStep m i = some m') : GraphInv m' := by
  rcases m with ⟨gs, node⟩
  cases node
  all_goals simp only [GraphInv] at hInv
  case ask_question =>
    cases i with
    | text t => exact Option.noConfusion hstep
    | score x => exact Option.noConfusion hstep
    | tick =>
      simp only [graphStep] at hstep
      cases hstep
      exact ⟨(by decide : (0 : Nat) < 3), fun r hr => absurd hr (List.not_mem_nil r),
        (by decide : validSender "GPT" = true),
        fun h => absurd h (by decide : (1 : Nat) ≠ 0), fun _ => rfl⟩
  case get_initial_response =>
    cases i with
    | score x => exact Option.noConfusion hstep
    | tick => exact Option.noConfusion hstep
    | text t =>
      simp only [graphStep] at hstep
      split at hstep
      · cases hstep
        exact Or.inl hInv
      · exact Option.noConfusion hstep
  case get_revision_response =>
    cases i with
    | score x => exact Option.noConfusion hstep
    | tick => exact Option.noConfusion hstep
    | text t =>
      simp only [graphStep] at hstep
      cases hg : get_info_for_revision_response gs with
      | none => rw [hg] at hstep; exact Option.noConfusion hstep
      | some info =>
        rw [hg] at hstep
        have hstep2 :
            (if validSender info.2.1 then
              some (⟨join_graph gs t, .commenter⟩ : MState)
            else none) = some m' := hstep
        split at hstep2
        · cases hstep2
          exact Or.inr hInv
        · exact Option.noConfusion hstep2
  case commenter =>
    cases i with
    | score x => exact Option.noConfusion hstep
    | tick => exact Option.noConfusion hstep
    | text c =>
      simp only [graphStep] at hstep
      cases hstep
      exact hInv
  case scorer =>
    cases i with
    | text t => exact Option.noConfusion hstep
    | tick => exact Option.noConfusion hstep
    | score x =>
      simp only [graphStep] at hstep
      rcases hInv with hB | hR
      · have hcond : (create_scorer_agent gs x).start ≠ 0 ∨
            (create_scorer_agent gs x).responses.length <
              (create_scorer_agent gs x).threads :=
          Or.inr hB.1
        have hroute :
            scorer_router (create_scorer_agent gs x) = "initial_response_handler" := by
          unfold scorer_router
          rw [if_pos hcond]
        rw [hroute, if_pos rfl] at hstep
        cases hstep
        exact hB
      · have hcond : ¬ ((create_scorer_agent gs x).start ≠ 0 ∨
            (create_scorer_agent gs x).responses.length <
              (create_scorer_agent gs x).threads) := by
          rintro (h | h)
          · exact h hR.1.1
          · have e : (create_scorer_agent gs x).responses.length =
                (create_scorer_agent gs x).threads := hR.1.2.1
            omega
        have hroute :
            scorer_router (create_scorer_agent gs x) = "revised_response_handler" := by
          unfold scorer_router
          rw [if_neg hcond]
        rw [hroute, if_neg (by decide), if_pos rfl] at hstep
        cases hstep
        exact hR
  case initial_handler =>
    cases i with
    | text t => exact Option.noConfusion hstep
    | score x => exact Option.noConfusion hstep
    | tick =>
      simp only [graphStep] at hstep
      cases hih : initial_response_handler gs with
      | none => rw [hih] at hstep; exact Option.noConfusion hstep
      | some gs2 =>
        rw [hih] at hstep
        have hstep2 :
            (if initial_response_router gs2 = "get_initial_response" then
              some (⟨gs2, .get_initial_response⟩ : MState)
            else if initial_response_router gs2 = "difficulty_assessment" then
              some ⟨gs2, .difficulty_assessment⟩
            else if initial_response_router gs2 = "beam_search_agent" then
              some ⟨gs2, .beam_search⟩
            else none) = some m' := hstep
        obtain ⟨hlt, hall, hva, hcfg, hthr⟩ := hInv
        obtain ⟨hl2, ht2, hb2, hs2, hva2, hall2i⟩ := initial_handler_spec hih
        have hall2 := hall2i hall
        by_cases h1 : gs2.responses.length < gs2.threads
        · have hroute : initial_response_router gs2 = "get_initial_response" := by
            unfold initial_response_router
            rw [if_pos h1]
          rw [hroute, if_pos rfl] at hstep2
          cases hstep2
          refine ⟨h1, hall2, hva2, ?_, ?_⟩
          · rw [hs2, hb2, ht2]
            exact hcfg
          · rw [hs2, ht2]
            exact hthr
        · by_cases h2 : gs2.start ≠ 0
          · have hroute : initial_response_router gs2 = "difficulty_assessment" := by
              unfold initial_response_router
              rw [if_neg h1, if_pos h2]
            rw [hroute, if_neg (by decide), if_pos rfl] at hstep2
            cases hstep2
            have hth3 : gs.threads = 3 := hthr (by rw [hs2] at h2; exact h2)
            refine ⟨?_, by rw [ht2, hth3], hall2, hva2⟩
            rw [hl2] at h1 ⊢
            rw [ht2] at h1
            omega
          · have hroute : initial_response_router gs2 = "beam_search_agent" := by
              unfold initial_response_router
              rw [if_neg h1, if_neg h2]
            rw [hroute, if_neg (by decide), if_neg (by decide), if_pos rfl] at hstep2
            cases hstep2
            have hs0 : gs.start = 0 := by
              have := not_not.mp h2
              rwa [hs2] at this
            refine ⟨by rw [hs2]; exact hs0, ?_, by rw [hb2]; exact (hcfg hs0).1,
              by rw [hb2, ht2]; exact (hcfg hs0).2, 1, le_refl 1, hall2⟩
            rw [hl2] at h1 ⊢
            rw [ht2] at h1 ⊢
            omega
  case difficulty_assessment =>
    cases i with
    | score x => exact Option.noConfusion hstep
    | tick => exact Option.noConfusion hstep
    | text t =>
      simp only [graphStep] at hstep
      cases hda : create_difficulty_agent gs t with
      | none => rw [hda] at hstep; exact Option.noConfusion hstep
      | some gs2 =>
        rw [hda] at hstep
        have hstep2 :
            (if difficulty_router gs2 = "get_initial_response" then
              some (⟨gs2, .get_initial_response⟩ : MState)
            else if difficulty_router gs2 = "beam_search_agent" then
              some ⟨gs2, .beam_search⟩
            else none) = some m' := hstep
        obtain ⟨hresp, hs0, hb3, hth3, hble, hag⟩ := difficulty_agent_spec hda
        obtain ⟨hlen3, hthr3, hall1, hva⟩ := hInv
        by_cases h1 : gs2.responses.length < gs2.threads
        · have hroute : difficulty_router gs2 = "get_initial_response" := by
            unfold difficulty_router
            rw [if_pos h1]
          rw [hroute, if_pos rfl] at hstep2
          cases hstep2
          refine ⟨h1, by rw [hresp]; exact hall1, by rw [hag]; exact hva, ?_, ?_⟩
          · intro _
            refine ⟨?_, hble⟩
            rw [hb3]
            decide
          · intro hne
            exact absurd hs0 hne
        · have hroute : difficulty_router gs2 = "beam_search_agent" := by
            unfold difficulty_router
            rw [if_neg h1]
          rw [hroute, if_neg (by decide), if_pos rfl] at hstep2
          cases hstep2
          refine ⟨hs0, ?_, by rw [hb3]; decide, hble, 1, le_refl 1,
            by rw [hresp]; exact hall1⟩
          show gs2.responses.length = gs2.threads
          rw [hresp, hlen3]
          rw [hresp, hlen3] at h1
          omega
  case beam_search =>
    cases i with
    | text t => exact Option.noConfusion hstep
    | score x => exact Option.noConfusion hstep
    | tick =>
      simp only [graphStep] at hstep
      cases hstep
      obtain ⟨hs0, hlen, hb1, hbt, L, hL, hall⟩ := hInv
      have hlen2 : (beam_search_core gs.responses gs.beams gs.threads).1.length = gs.threads :=
        beam_core_length hlen hb1 hbt
      refine ⟨⟨hs0, hlen2, hb1, hbt, Nat.zero_le _, L, hL, ?_⟩, ?_⟩
      · intro j hj
        show ((beam_search_core gs.responses gs.beams gs.threads).1.get ⟨j, hj⟩).content.length =
          if j < 0 then L + 1 else L
        rw [if_neg (by omega)]
        have hmem : (beam_search_core gs.responses gs.beams gs.threads).1.get ⟨j, hj⟩ ∈
            (beam_search_core gs.responses gs.beams gs.threads).1 :=
          List.get_mem _ _ hj
        exact hall _ (mem_of_mem_beam_core_kept hmem)
      · show 0 < gs.threads
        omega
  case revised_handler =>
    cases i with
    | text t => exact Option.noConfusion hstep
    | score x => exact Option.noConfusion hstep
    | tick =>
      simp only [graphStep] at hstep
      obtain ⟨⟨hs0, hlen, hb1, hbt, hidx, L, hL, hlens⟩, hmid⟩ := hInv
      cases hrh : revised_response_handler gs with
      | none => rw [hrh] at hstep; exact Option.noConfusion hstep
      | some gs2 =>
        rw [hrh] at hstep
        have hstep2 :
            (match revision_router gs2 with
            | none => none
            | some lbl =>
              if lbl = "get_revision_response" then
                some (⟨gs2, .get_revision_response⟩ : MState)
              else if lbl = "check_done" then some ⟨gs2, .check_done⟩
              else if lbl = "summary" then some ⟨gs2, .final_summary⟩
              else none) = some m' := hstep
        obtain ⟨hin, hl2, ht2, hb2, hs2, hr2, hi2, hcont⟩ := revised_handler_spec hrh
        have hlens2 : ∀ (j : Nat) (hj : j < gs2.responses.length),
            (gs2.responses.get ⟨j, hj⟩).content.length =
              if j < gs2.index then L + 1 else L := by
          intro j hj
          have hj' : j < gs.responses.length := by
            rw [hl2] at hj
            exact hj
          rw [hcont j hj hj', hi2]
          by_cases hje : j = gs.index
          · rw [if_pos hje, hlens j hj', if_neg (by omega), if_pos (by omega)]
          · rw [if_neg hje, hlens j hj']
            split_ifs <;> omega
        cases hrr : revision_router gs2 with
        | none => rw [hrr] at hstep2; exact Option.noConfusion hstep2
        | some lbl =>
          rw [hrr] at hstep2
          have hstep3 :
              (if lbl = "get_revision_response" then
                some (⟨gs2, .get_revision_response⟩ : MState)
              else if lbl = "check_done" then some ⟨gs2, .check_done⟩
              else if lbl = "summary" then some ⟨gs2, .final_summary⟩
              else none) = some m' := hstep2
          unfold revision_router at hrr
          cases hlast : gs2.responses.getLast? with
          | none => rw [hlast] at hrr; exact Option.noConfusion hrr
          | some r2 =>
            rw [hlast] at hrr
            have hrr2 : (if r2.content.length = gs2.revisions + 1 then some "summary"
                else if gs2.index = gs2.threads then some "check_done"
                else some "get_revision_response") = some lbl := hrr
            by_cases hsum : r2.content.length = gs2.revisions + 1
            · rw [if_pos hsum] at hrr2
              have hl : lbl = "summary" := (Option.some.inj hrr2).symm
              subst hl
              rw [if_neg (by decide), if_neg (by decide), if_pos rfl] at hstep3
              cases hstep3
              trivial
            · rw [if_neg hsum] at hrr2
              by_cases hdone : gs2.index = gs2.threads
              · rw [if_pos hdone] at hrr2
                have hl : lbl = "check_done" := (Option.some.inj hrr2).symm
                subst hl
                rw [if_neg (by decide), if_pos rfl] at hstep3
                cases hstep3
                refine ⟨by rw [hs2]; exact hs0, ?_,
                  by rw [hb2]; exact hb1, by rw [hb2, ht2]; exact hbt,
                  L + 1, by omega, ?_⟩
                · show gs2.responses.length = gs2.threads
                  rw [hl2, ht2, hlen]
                · intro r hr
                  rcases List.mem_iff_getElem.mp hr with ⟨j, hj, rfl⟩
                  have hj0 : j < gs2.responses.length := hj
                  have hjlt : j < gs2.index := by
                    have e1 : gs2.responses.length = gs.responses.length := hl2
                    have e2 : gs2.threads = gs.threads := ht2
                    have e3 : gs2.index = gs.index + 1 := hi2
                    have e4 : gs2.index = gs2.threads := hdone
                    omega
                  show (gs2.responses.get ⟨j, hj0⟩).content.length = L + 1
                  rw [hlens2 j hj0, if_pos hjlt]
              · rw [if_neg hdone] at hrr2
                have hl : lbl = "get_revision_response" := (Option.some.inj hrr2).symm
                subst hl
                rw [if_pos rfl] at hstep3
                cases hstep3
                refine ⟨⟨by rw [hs2]; exact hs0, ?_,
                  by rw [hb2]; exact hb1, by rw [hb2, ht2]; exact hbt, ?_,
                  L, hL, hlens2⟩, ?_⟩
                · show gs2.responses.length = gs2.threads
                  rw [hl2, ht2, hlen]
                · show gs2.index ≤ gs2.threads
                  rw [hi2, ht2]
                  omega
                · show gs2.index < gs2.threads
                  have e3 : gs2.index = gs.index + 1 := hi2
                  have e2 : gs2.threads = gs.threads := ht2
                  omega
  case check_done =>
    cases i with
    | score x => exact Option.noConfusion hstep
    | tick => exact Option.noConfusion hstep
    | text t =>
      simp only [graphStep] at hstep
      by_cases hd : (create_check_done_agent gs t).done
      · have hroute : done_router (create_check_done_agent gs t) = "__end__" := by
          unfold done_router
          rw [if_pos hd]
        rw [hroute, if_neg (by decide), if_pos rfl] at hstep
        cases hstep
        trivial
      · have hroute : done_router (create_check_done_agent gs t) = "continue" := by
          unfold done_router
          rw [if_neg hd]
        rw [hroute, if_pos rfl] at hstep
        cases hstep
        exact hInv
  case final_summary =>
    cases i with
    | score x => exact Option.noConfusion hstep
    | tick => exact Option.noConfusion hstep
    | text t =>
      simp only [graphStep] at hstep
      cases hstep
      trivial
  case endNode =>
    cases i with
    | text t => exact Option.noConfusion hstep
    | score x => exact Option.noConfusion hstep
    | tick => exact Option.noConfusion hstep

theorem graphRun_inv :
    ∀ (ins : List OracleIn) (m0 m : MState),
      GraphInv m0 → graphRun m0 ins = some m → GraphInv m := by
  intro ins
  induction ins with
  | nil =>
    intro m0 m h0 hrun
    simp only [graphRun] at hrun
    cases hrun
    exact h0
  | cons i is ih =>
    intro m0 m h0 hrun
    simp only [graphRun] at hrun
    cases hs : graphStep m0 i with
    | none => rw [hs] at hrun; exact Option.noConfusion hrun
    | some m1 =>
      rw [hs] at hrun
      exact ih m1 m (graphStep_inv h0 hs) hrun

/-- C8: in every reachable state of the workflow, whenever the `check_done`
node (the convergence gate) is about to run, every thread's history length
is equal — the gate is never consulted while two threads' history lengths
differ. -/
theorem convergence_gate_equal_histories (q : String) (ins : List OracleIn)
    (m : MState) (hrun : graphRun (initM q) ins = some m)
    (hnode : m.node = GNode.check_done) :
    ∀ r ∈ m.gs.responses, ∀ r' ∈ m.gs.responses,
      r.content.length = r'.content.length := by
  have hInv : GraphInv m := graphRun_inv ins (initM q) m trivial hrun
  rcases m with ⟨gs, node⟩
  cases hnode
  rcases hInv with ⟨_, _, _, _, L, _, hall⟩
  intro r hr r' hr'
  rw [hall r hr, hall r' hr']

/-- An oracle trace driving a full run up to the first convergence-gate
consultation: three bootstrap generations, a tier-1 classification, one
selection, and one full round of three revisions. -/
def c8Trace : List OracleIn :=
  [.tick,
   .text "a1", .text "k1", .score 8, .tick,
   .text "a2", .text "k2", .score 5, .tick,
   .text "a3", .text "k3", .score 9, .tick,
   .text "1",
   .tick,
   .text "r1", .text "m1", .score 7, .tick,
   .text "r2", .text "m2", .score 6, .tick,
   .text "r3", .text "m3", .score 8, .tick]

/-- The machine state reached by `c8Trace`. -/
def c8Final : MState := (graphRun (initM "q") c8Trace).getD default

/-- Witness for C8: the concrete run `c8Trace` reaches the convergence
gate, and there all three thread histories have equal length. -/
theorem convergence_gate_equal_histories_witness :
    (graphRun (initM "q") c8Trace = some c8Final ∧
      c8Final.node = GNode.check_done) ∧
    ∀ r ∈ c8Final.gs.responses, ∀ r' ∈ c8Final.gs.responses,
      r.content.length = r'.content.length :=
  ⟨⟨by decide, by decide⟩,
    convergence_gate_equal_histories "q" c8Trace c8Final (by decide) (by decide)⟩

/-- The spec's Scenario C, mid-round, just before the revision of the
thread at cursor 2 of 5 is committed: threads 0 and 1 already carry their
revision (history length 2), threads 2–4 still have length 1,
`revisionBudget = 1`, and the scored revision for thread 2 is pending. -/
def c3State : GraphState :=
  { responses :=
      [⟨"GPT", [⟨"a0", "k0", 9⟩, ⟨"a1", "k1", 9⟩]⟩,
       ⟨"Claude", [⟨"b0", "k0", 8⟩, ⟨"b1", "k1", 8⟩]⟩,
       ⟨"Mistral", [⟨"c0", "k0", 7⟩]⟩,
       ⟨"GPT", [⟨"d0", "k0", 6⟩]⟩,
       ⟨"Claude", [⟨"e0", "k0", 5⟩]⟩],
    index := 2, threads := 5, beams := 3, revisions := 1, start := 0,
    agent_response := ⟨"c1", "k1", 7⟩ }

/-- Counterexample to C3: committing the revision brings the thread at
cursor 2 to history length 2 = revisionBudget + 1 mid-round, yet the
workflow steps to `get_revision_response` (reviving thread 3), not to the
final summary — the router's budget check inspects `responses[-1]`, whose
history still has length 1, so the run does not end. -/
theorem revision_early_exit_cex :
    ((revised_response_handler c3State).map
        (fun gs => gs.responses[2]?.map (fun r => r.content.length)) =
      some (some 2)) ∧
    c3State.revisions = 1 ∧
    ((graphStep ⟨c3State, GNode.revised_handler⟩ OracleIn.tick).map MState.node =
      some GNode.get_revision_response) := by
  decide

/-- C3 amended: the budget check inspects the last thread
(`responses[-1]`), not the thread just revised, so mid-round budget
exhaustion at the cursor does not end the run; the remaining threads are
revised first, and the run jumps to the final summary — bypassing the
convergence gate — only once the last thread's history reaches
`revisionBudget + 1`.  In Scenario C the machine revises threads 3 and 4
(with whatever the models return) and only then proceeds to the
aggregator. -/
theorem revision_early_exit_amended :
    ∀ (t3 k3 : String) (x3 : ℚ) (t4 k4 : String) (x4 : ℚ),
      (graphRun ⟨c3State, GNode.revised_handler⟩
        [.tick, .text t3, .text k3, .score x3, .tick,
         .text t4, .text k4, .score x4, .tick]).map MState.node =
        some GNode.final_summary := by
  intro t3 k3 x3 t4 k4 x4
  rfl

/-- C10: in the revision router the budget-exhaustion check is evaluated
before the round-completion check: when the committed revision leaves the
last thread's history at `revisionBudget + 1` while the cursor sits at the
round boundary (`index = threads`), the step routes to the final summary,
not to the convergence gate. -/
theorem budget_check_precedes_round_check (s gs2 : GraphState) (r : Response)
    (h1 : revised_response_handler s = some gs2)
    (h2 : gs2.responses.getLast? = some r)
    (h3 : r.content.length = gs2.revisions + 1)
    (h4 : gs2.index = gs2.threads) :
    revision_router gs2 = some "summary" ∧
      graphStep ⟨s, GNode.revised_handler⟩ OracleIn.tick =
        some ⟨gs2, GNode.final_summary⟩ := by
  have hr : revision_router gs2 = some "summary" := by
    unfold revision_router
    rw [h2]
    show (if r.content.length = gs2.revisions + 1 then some "summary"
      else if gs2.index = gs2.threads then some "check_done"
      else some "get_revision_response") = some "summary"
    rw [if_pos h3]
  refine ⟨hr, ?_⟩
  show (match revised_response_handler s with
    | none => none
    | some gs =>
      match revision_router gs with
      | none => none
      | some lbl =>
        if lbl = "get_revision_response" then
          some (⟨gs, GNode.get_revision_response⟩ : MState)
        else if lbl = "check_done" then some ⟨gs, GNode.check_done⟩
        else if lbl = "summary" then some ⟨gs, GNode.final_summary⟩
        else none) = some ⟨gs2, GNode.final_summary⟩
  rw [h1]
  show (match revision_router gs2 with
    | none => none
    | some lbl =>
      if lbl = "get_revision_response" then
        some (⟨gs2, GNode.get_revision_response⟩ : MState)
      else if lbl = "check_done" then some ⟨gs2, GNode.check_done⟩
      else if lbl = "summary" then some ⟨gs2, GNode.final_summary⟩
      else none) = some ⟨gs2, GNode.final_summary⟩
  rw [hr]
  show (if "summary" = "get_revision_response" then
      some (⟨gs2, GNode.get_revision_response⟩ : MState)
    else if "summary" = "check_done" then some ⟨gs2, GNode.check_done⟩
    else if "summary" = "summary" then some ⟨gs2, GNode.final_summary⟩
    else none) = some ⟨gs2, GNode.final_summary⟩
  rw [if_neg (by decide), if_neg (by decide), if_pos rfl]

/-- A three-thread state at the end of the run's final round: the first two
threads already carry their second entry, the pending revision of the last
thread is about to be committed, and `revisionBudget = 1`. -/
def c10State : GraphState :=
  { responses :=
      [⟨"GPT", [⟨"a0", "k0", 9⟩, ⟨"a1", "k1", 9⟩]⟩,
       ⟨"Claude", [⟨"b0", "k0", 8⟩, ⟨"b1", "k1", 8⟩]⟩,
       ⟨"Mistral", [⟨"g0", "k0", 7⟩]⟩],
    index := 2, threads := 3, beams := 3, revisions := 1, start := 0,
    agent_response := ⟨"g1", "k1", 7⟩ }

/-- The state after committing the last thread's revision in `c10State`. -/
def c10After : GraphState := (revised_response_handler c10State).getD default

/-- Witness for C10: at the concrete round boundary the router yields
`"summary"` and the machine proceeds to the final summary. -/
theorem budget_check_precedes_round_check_witness :
    revision_router c10After = some "summary" ∧
      graphStep ⟨c10State, GNode.revised_handler⟩ OracleIn.tick =
        some ⟨c10After, GNode.final_summary⟩ :=
  budget_check_precedes_round_check c10State c10After
    ⟨"Mistral", [⟨"g0", "k0", 7⟩, ⟨"g1", "k1", 7⟩]⟩
    (by decide) (by decide) (by decide) (by decide)

/-! ### Deep copies: an object-heap model of the selection step -/

/-- A heap of thread objects; an address is an index into `cells`.  This
models Python's object identity: two list entries holding the same address
alias one object, and `copy.deepcopy` allocates a fresh address. -/
structure Heap where
  cells : List Response
deriving DecidableEq, Repr, Inhabited

/-- Dereference an address (reads of dangling addresses return a default
and never arise in the claims). -/
def Heap.read (h : Heap) (a : Nat) : Response :=
  (h.cells[a]?).getD default

/-- Mutate the object at an address in place — e.g. appending to its
history. -/
def Heap.write (h : Heap) (a : Nat) (r : Response) : Heap :=
  ⟨h.cells.set a r⟩

/-- Allocate fresh objects for the listed values, returning the new heap
and their (consecutive, fresh) addresses. -/
def Heap.allocMany (h : Heap) (vs : List Response) : Heap × List Nat :=
  (⟨h.cells ++ vs⟩, List.range' h.cells.length vs.length)

/-- `beam_search_agent` over the object heap: the population is a list of
addresses; sorting and selection shuffle addresses, while every entry of
the refilled population — including the first copy of each kept thread —
is produced by `copy.deepcopy`, i.e. a freshly allocated object holding a
copy of the kept thread's current value.  Returns the new heap, the
refilled population's addresses and the discarded addresses. -/
def beam_search_heap (h : Heap) (addrs : List Nat) (beams threads : Nat) :
    Heap × List Nat × List Nat :=
  let sortedAddrs := addrs.insertionSort
    (fun a b => latestScore (h.read b) ≤ latestScore (h.read a))
  let best := sortedAddrs.take beams
  let bad := sortedAddrs.drop beams
  let cloneVals :=
    ((best.map (fun a => List.replicate (threads / beams) (h.read a))).flatten)
      ++ (best.take (threads % beams)).map h.read
  let alloc := h.allocMany cloneVals
  (alloc.1, alloc.2, bad)

/-- C7: every clone produced by beam-search selection is a deep,
independent copy — the post-selection population consists of pairwise
distinct fresh addresses, none of which is an address of a pre-existing
thread, and writing through any address (e.g. appending to that thread's
history) leaves the object at every other address untouched.  Hence
mutating one clone never alters a sibling clone or the original. -/
theorem beam_selection_clones_independent (h : Heap) (addrs : List Nat)
    (b t : Nat) (hv : ∀ a ∈ addrs, a < h.cells.length) :
    ((beam_search_heap h addrs b t).2.1).Nodup ∧
    (∀ a ∈ (beam_search_heap h addrs b t).2.1, a ∉ addrs) ∧
    (∀ (a : Nat) (r : Response) (x : Nat), x ≠ a →
      (((beam_search_heap h addrs b t).1).write a r).read x =
        ((beam_search_heap h addrs b t).1).read x) := by
  refine ⟨List.nodup_range' _ _, ?_, ?_⟩
  · intro a ha hmem
    have hge : h.cells.length ≤ a := (List.mem_range'_1.mp ha).1
    have hlt : a < h.cells.length := hv a hmem
    omega
  · intro a r x hx
    show ((((beam_search_heap h addrs b t).1).cells.set a r)[x]?).getD default =
      ((((beam_search_heap h addrs b t).1).cells)[x]?).getD default
    rw [List.getElem?_set_ne (fun hc => hx hc.symm)]

/-- A concrete three-object heap for the C7 witness. -/
def c7Heap : Heap := ⟨[thA, thB, thC]⟩

/-- Witness for C7: selecting 2 of the 3 threads with `threadCount = 3`
yields pairwise distinct fresh clone addresses, disjoint from the original
addresses, with writes framed to the written address. -/
theorem beam_selection_clones_independent_witness :
    (∀ a ∈ [0, 1, 2], a < c7Heap.cells.length) ∧
    ((beam_search_heap c7Heap [0, 1, 2] 2 3).2.1).Nodup ∧
    (∀ a ∈ (beam_search_heap c7Heap [0, 1, 2] 2 3).2.1, a ∉ [0, 1, 2]) :=
  ⟨by decide,
    (beam_selection_clones_independent c7Heap [0, 1, 2] 2 3 (by decide)).1,
    (beam_selection_clones_independent c7Heap [0, 1, 2] 2 3 (by decide)).2.1⟩

/-! ### The aggregator -/

/-- A one-thread population whose final history entry is `final`. -/
def c9s1 : GraphState :=
  { question := "q",
    responses := [⟨"GPT", [⟨"early1", "e1", 3⟩, ⟨"final", "fc", 7⟩]⟩] }

/-- The same population except for the text of the non-final entry. -/
def c9s2 : GraphState :=
  { question := "q",
    responses := [⟨"GPT", [⟨"early2", "e2", 3⟩, ⟨"final", "fc", 7⟩]⟩] }

/-- Counterexample to C9: `create_final_summary_agent` interpolates
`str(responses)` — every history entry — into the aggregation prompt, so
two populations agreeing on every thread's final entry but differing in a
non-final entry are sent different prompts: with the same aggregation
model (here the identity on the prompt) the outputs differ, i.e. the
aggregator's output does depend on non-final history entries. -/
theorem aggregator_depends_on_nonfinal_cex :
    (c9s1.responses.map (fun r => r.content.getLast?) =
      c9s2.responses.map (fun r => r.content.getLast?)) ∧
    (create_final_summary_agent c9s1 (fun p => p)).final_response ≠
      (create_final_summary_agent c9s2 (fun p => p)).final_response := by
  decide

/-- C9 amended: the aggregator is a pure function of the question, the
*full* reasoning chains and the aggregation model's reply — it renders
every history entry of every thread into the prompt (instructing the model
only textually to focus on each chain's final entry) — and it mutates
nothing: the returned update carries only `final_response`, leaving the
population (active and discarded) and every other key unchanged. -/
theorem aggregator_pure_not_mutating (s : GraphState) (llm : String → String) :
    ((create_final_summary_agent s llm).responses = s.responses) ∧
    ((create_final_summary_agent s llm).discarded_responses =
      s.discarded_responses) ∧
    ((create_final_summary_agent s llm).index = s.index ∧
      (create_final_summary_agent s llm).question = s.question) ∧
    ((create_final_summary_agent s llm).final_response =
      llm (final_summary_prompt s.question s.responses)) ∧
    (∀ (s' : GraphState) (llm' : String → String),
      s'.question = s.question → s'.responses = s.responses →
      (∀ p, llm' p = llm p) →
      (create_final_summary_agent s' llm').final_response =
        (create_final_summary_agent s llm).final_response) := by
  refine ⟨rfl, rfl, ⟨rfl, rfl⟩, rfl, ?_⟩
  intro s' llm' hq hr hllm
  show llm' (final_summary_prompt s'.question s'.responses) =
    llm (final_summary_prompt s.question s.responses)
  rw [hq, hr, hllm]

/-- Witness for C9's amended theorem at a concrete population and model. -/
theorem aggregator_pure_not_mutating_witness :
    ((create_final_summary_agent c9s1 (fun p => p)).responses =
      c9s1.responses) ∧
    (create_final_summary_agent
        { question := "q",
          responses := [⟨"GPT", [⟨"early1", "e1", 3⟩, ⟨"final", "fc", 7⟩]⟩] }
        (fun p => p)).final_response =
      (create_final_summary_agent c9s1 (fun p => p)).final_response :=
  ⟨(aggregator_pure_not_mutating c9s1 (fun p => p)).1,
    (aggregator_pure_not_mutating c9s1 (fun p => p)).2.2.2.2
      { question := "q",
        responses := [⟨"GPT", [⟨"early1", "e1", 3⟩, ⟨"final", "fc", 7⟩]⟩] }
      (fun p => p) rfl rfl (fun _ => rfl)⟩
